import Mathlib

/-!
Shallow embedding of the `dumpsys-rs` crate (`src/lib.rs`): a binder service
handle (`Dumpsys::new`) and two pipe-capture operations (`Dumpsys::dump` and
`Dumpsys::dump_to_byte`).

The external world of one capture call — pipe creation, the byte stream
observable on the pipe read end, a possible read failure, and the worker
thread running `service.dump(&write, args)` — is abstracted as `RemoteEnv`.
`delivered` is the sequence of bytes the read end successfully yields, in
write order; after that sequence the next read either reports end-of-stream
(`readErr = none`, the worker closed the write end) or fails with an I/O
error (`readErr = some code`).  Reads deliver maximal chunks: each `read`
call returns `min(space, remaining)` bytes; the captured data depends only
on the delivered byte sequence, not on the chunking.
-/

/-- Modelled from the spec: `src/error.rs` is declared by `mod error;` but is
not present in the sources.  The spec describes a single typed error wrapping
pipe/IO failures and remote-dump failures ("Every error from pipe
construction, the read loop, or the worker's own result is wrapped into one
error type exposed to the caller").  Error payloads are abstracted as
numeric codes. -/
inductive DumpError where
  | ioError (code : Nat)
  | dumpFail (code : Nat)
deriving DecidableEq, Repr

/-- Result of one whole capture call: a captured value, a typed `DumpError`,
or a process-level fatal fault — the latter models `handle.join().unwrap()`
panicking because the worker thread terminated abnormally. -/
inductive Outcome (α : Type) where
  | ok (a : α)
  | err (e : DumpError)
  | fatal
deriving DecidableEq, Repr

/-- How the spawned worker (`thread::spawn(move || service.dump(&write, args))`)
ends: returning Ok, returning a binder error from the remote dump, or
terminating abnormally (panicking) instead of returning a result. -/
inductive WorkerEnd where
  | ok
  | fails (code : Nat)
  | dies
deriving DecidableEq, Repr

/-- Resource and lifecycle events of one capture call, used to state the
pipe/worker creation and teardown invariants.  `spawned args` records the
argument list handed to the worker closure, `joined` the completion of
`handle.join()`, and `pipeClosed` the drop of the read end when the inner
block is left (the write end is owned and closed by the worker). -/
inductive Event where
  | pipeCreated
  | spawned (args : List String)
  | joined
  | pipeClosed
deriving DecidableEq, Repr

/-- The environment of a single capture call. -/
structure RemoteEnv where
  /-- `some code` iff `os_pipe::pipe()` fails with that I/O error. -/
  pipeErr : Option Nat
  /-- The bytes the pipe read end successfully yields, in write order. -/
  delivered : List Nat
  /-- After `delivered` is consumed: `none` means the next read reports
  end-of-stream (zero-length read); `some code` means it fails. -/
  readErr : Option Nat
  /-- How the worker thread ends. -/
  worker : WorkerEnd

/-- `pub struct Dumpsys { service: SpIBinder }` — the remote object reference
is abstracted as a numeric handle. -/
structure Dumpsys where
  service : Nat
deriving DecidableEq, Repr

/-- `Dumpsys::new`: `let service = check_service(service_name.as_ref())?;
Some(Self { service })`.  The external registry `check_service` is abstracted
as a function from names to an optional remote object. -/
def Dumpsys.new (registry : String → Option Nat) (name : String) :
    Option Dumpsys :=
  match registry name with
  | none => none
  | some s => some ⟨s⟩

/-- Whether `b` is a UTF-8 continuation byte (`0x80..=0xBF`). -/
def contByte (b : Nat) : Bool :=
  decide (0x80 ≤ b ∧ b ≤ 0xBF)

/-- UTF-8 validity of a byte sequence, as checked by the standard library
inside `Read::read_to_string` (RFC 3629 well-formedness). -/
def utf8Valid : List Nat → Bool
  | [] => true
  | b :: rest =>
    if b ≤ 0x7F then
      utf8Valid rest
    else if 0xC2 ≤ b ∧ b ≤ 0xDF then
      match rest with
      | b1 :: r => contByte b1 && utf8Valid r
      | [] => false
    else if b = 0xE0 then
      match rest with
      | b1 :: b2 :: r =>
          decide (0xA0 ≤ b1 ∧ b1 ≤ 0xBF) && contByte b2 && utf8Valid r
      | _ => false
    else if (0xE1 ≤ b ∧ b ≤ 0xEC) ∨ (0xEE ≤ b ∧ b ≤ 0xEF) then
      match rest with
      | b1 :: b2 :: r => contByte b1 && contByte b2 && utf8Valid r
      | _ => false
    else if b = 0xED then
      match rest with
      | b1 :: b2 :: r =>
          decide (0x80 ≤ b1 ∧ b1 ≤ 0x9F) && contByte b2 && utf8Valid r
      | _ => false
    else if b = 0xF0 then
      match rest with
      | b1 :: b2 :: b3 :: r =>
          decide (0x90 ≤ b1 ∧ b1 ≤ 0xBF) && contByte b2 && contByte b3 &&
            utf8Valid r
      | _ => false
    else if 0xF1 ≤ b ∧ b ≤ 0xF3 then
      match rest with
      | b1 :: b2 :: b3 :: r =>
          contByte b1 && contByte b2 && contByte b3 && utf8Valid r
      | _ => false
    else if b = 0xF4 then
      match rest with
      | b1 :: b2 :: b3 :: r =>
          decide (0x80 ≤ b1 ∧ b1 ≤ 0x8F) && contByte b2 && contByte b3 &&
            utf8Valid r
      | _ => false
    else
      false

/-- The read loop of `dump_to_byte`:

```
while total_read < N {
    let n = read.read(&mut buf[total_read..])?;
    if n == 0 { break; }
    total_read += n;
}
```

`buf` is the `N`-byte buffer (as a list of length `N`), `total` is
`total_read`, `rem` the bytes still deliverable by the pipe, `err` the read
failure scheduled after `rem` (none = end-of-stream).  Each read call
delivers `min (N - total) rem.length` bytes into `buf[total..]`.  Returns
the I/O error code, or `(buf, total_read, undelivered bytes)` on exit. -/
def fillLoop (N : Nat) (buf : List Nat) (total : Nat) (rem : List Nat)
    (err : Option Nat) : Except Nat (List Nat × Nat × List Nat) :=
  if h : total < N then
    match rem with
    | [] =>
      match err with
      | some c => .error c
      | none => .ok (buf, total, [])
    | b :: tl =>
      fillLoop N
        (buf.take total ++ (b :: tl).take (min (N - total) (b :: tl).length)
          ++ buf.drop (total + min (N - total) (b :: tl).length))
        (total + min (N - total) (b :: tl).length)
        ((b :: tl).drop (min (N - total) (b :: tl).length))
        err
  else
    .ok (buf, total, rem)
termination_by rem.length
decreasing_by
  simp only [List.length_drop, List.length_cons]
  omega

/-- `Dumpsys::dump`: the text-capture operation.

```
let mut buf = String::new();
{
    let mut service = self.service.clone();
    let (mut read, write) = os_pipe::pipe()?;
    let handle = thread::spawn(move || service.dump(&write, args));
    let _ = read.read_to_string(&mut buf);
    handle.join().unwrap()?;
}
Ok(buf)
```

`read_to_string` appends the bytes it managed to read (`env.delivered`,
whether the stream then ended or a read failed) to `buf` when they are
valid UTF-8 — a mid-stream I/O error still leaves the already-read bytes in
`buf` — and truncates `buf` back (leaving it empty) only when they are not
valid UTF-8; the returned error, I/O or decoding, is discarded by the
`let _ =` either way.  The captured text is modelled as its UTF-8 byte
sequence. -/
def Dumpsys.dump (_d : Dumpsys) (args : List String) (env : RemoteEnv) :
    Outcome (List Nat) × List Event :=
  match env.pipeErr with
  | some c => (.err (.ioError c), [])
  | none =>
    let buf : List Nat :=
      if utf8Valid env.delivered then env.delivered else []
    match env.worker with
    | .dies => (.fatal, [.pipeCreated, .spawned args, .joined, .pipeClosed])
    | .fails c =>
        (.err (.dumpFail c),
          [.pipeCreated, .spawned args, .joined, .pipeClosed])
    | .ok => (.ok buf, [.pipeCreated, .spawned args, .joined, .pipeClosed])

/-- `Dumpsys::dump_to_byte::<N>`: the fixed-capacity capture operation.

```
let mut buf = [0u8; N];
let mut total_read = 0;
{
    let mut service = self.service.clone();
    let (mut read, write) = os_pipe::pipe()?;
    let handle = thread::spawn(move || service.dump(&write, args));
    while total_read < N {
        let n = read.read(&mut buf[total_read..])?;
        if n == 0 { break; }
        total_read += n;
    }
    handle.join().unwrap()?;
}
Ok(buf)
```

A read failure propagates with `?` from inside the block, before
`handle.join()` is reached: the worker is then dropped (detached), never
joined, so no `joined` event occurs on that path. -/
def Dumpsys.dump_to_byte (_d : Dumpsys) (N : Nat) (args : List String)
    (env : RemoteEnv) : Outcome (List Nat) × List Event :=
  match env.pipeErr with
  | some c => (.err (.ioError c), [])
  | none =>
    match fillLoop N (List.replicate N 0) 0 env.delivered env.readErr with
    | .error c =>
        (.err (.ioError c), [.pipeCreated, .spawned args, .pipeClosed])
    | .ok (buf, _, _) =>
      match env.worker with
      | .dies =>
          (.fatal, [.pipeCreated, .spawned args, .joined, .pipeClosed])
      | .fails c =>
          (.err (.dumpFail c),
            [.pipeCreated, .spawned args, .joined, .pipeClosed])
      | .ok =>
          (.ok buf, [.pipeCreated, .spawned args, .joined, .pipeClosed])

/-! ### Characterization of the read loop -/

lemma fillLoop_stop (N : Nat) (buf : List Nat) (total : Nat) (rem : List Nat)
    (err : Option Nat) (h : ¬ total < N) :
    fillLoop N buf total rem err = .ok (buf, total, rem) := by
  rw [fillLoop.eq_def]
  simp [h]

lemma fillLoop_nil (N : Nat) (buf : List Nat) (total : Nat) (err : Option Nat)
    (h : total < N) :
    fillLoop N buf total [] err =
      match err with
      | some c => .error c
      | none => .ok (buf, total, []) := by
  rw [fillLoop.eq_def]
  simp [h]

lemma fillLoop_step (N : Nat) (buf : List Nat) (total : Nat) (b : Nat)
    (tl : List Nat) (err : Option Nat) (h : total < N) :
    fillLoop N buf total (b :: tl) err =
      fillLoop N
        (buf.take total ++ (b :: tl).take (min (N - total) (b :: tl).length)
          ++ buf.drop (total + min (N - total) (b :: tl).length))
        (total + min (N - total) (b :: tl).length)
        ((b :: tl).drop (min (N - total) (b :: tl).length))
        err := by
  rw [fillLoop.eq_def]
  simp [h]

lemma fillLoop_ge (N : Nat) (rem : List Nat) (err : Option Nat)
    (h : N ≤ rem.length) :
    fillLoop N (List.replicate N 0) 0 rem err =
      .ok (rem.take N, N, rem.drop N) := by
  rcases Nat.eq_zero_or_pos N with hN | hN
  · subst hN
    rw [fillLoop_stop _ _ _ _ _ (by omega)]
    simp
  · cases rem with
    | nil => simp at h; omega
    | cons b tl =>
      rw [fillLoop_step _ _ _ _ _ _ hN]
      have hmin : min (N - 0) (b :: tl).length = N := by
        simp only [Nat.sub_zero]
        omega
      rw [hmin]
      have hbuf : (List.replicate N 0).take 0 ++ (b :: tl).take N
          ++ (List.replicate N 0).drop (0 + N) = (b :: tl).take N := by
        simp
      rw [hbuf, Nat.zero_add, fillLoop_stop _ _ _ _ _ (by omega)]

lemma fillLoop_lt_step (N : Nat) (rem : List Nat) (err : Option Nat)
    (h : rem.length < N) :
    fillLoop N (List.replicate N 0) 0 rem err =
      fillLoop N (rem ++ List.replicate (N - rem.length) 0) rem.length []
        err := by
  cases rem with
  | nil => simp
  | cons b tl =>
    have hN : 0 < N := by
      have hlen : (b :: tl).length = tl.length + 1 := rfl
      omega
    rw [fillLoop_step _ _ _ _ _ _ hN]
    have hmin : min (N - 0) (b :: tl).length = (b :: tl).length := by
      simp only [Nat.sub_zero]
      omega
    rw [hmin]
    have hbuf : (List.replicate N 0).take 0 ++ (b :: tl).take (b :: tl).length
        ++ (List.replicate N 0).drop (0 + (b :: tl).length)
        = (b :: tl) ++ List.replicate (N - (b :: tl).length) 0 := by
      simp [List.drop_replicate]
    rw [hbuf, Nat.zero_add]
    simp

lemma fillLoop_eof (N : Nat) (rem : List Nat) (h : rem.length < N) :
    fillLoop N (List.replicate N 0) 0 rem none =
      .ok (rem ++ List.replicate (N - rem.length) 0, rem.length, []) := by
  rw [fillLoop_lt_step _ _ _ h, fillLoop_nil _ _ _ _ h]

lemma fillLoop_lt_err (N : Nat) (rem : List Nat) (c : Nat)
    (h : rem.length < N) :
    fillLoop N (List.replicate N 0) 0 rem (some c) = .error c := by
  rw [fillLoop_lt_step _ _ _ h, fillLoop_nil _ _ _ _ h]

/-! ### Claims -/

/-- C1, counterexample.  The claim says the reading side of `dump_to_byte`
keeps draining the pipe until end-of-stream even after `N` bytes have been
accumulated.  It does not: with capacity `N = 2` and a stream delivering
`[10, 20, 30]`, the read loop exits as soon as `total_read = 2`, leaving
byte `30` undelivered in the pipe (third component of the loop result) and
never observing end-of-stream; the call returns the first two bytes. -/
theorem c1_counterexample :
    fillLoop 2 (List.replicate 2 0) 0 [10, 20, 30] none =
      .ok ([10, 20], 2, [30])
    ∧ (Dumpsys.dump_to_byte ⟨0⟩ 2 [] ⟨none, [10, 20, 30], none,
        WorkerEnd.ok⟩).1 = .ok [10, 20]
    ∧ ([30] : List Nat) ≠ [] := by
  refine ⟨?_, ?_, by simp⟩
  · rw [fillLoop_ge 2 [10, 20, 30] none (by simp)]
    rfl
  · simp only [Dumpsys.dump_to_byte]
    rw [fillLoop_ge 2 [10, 20, 30] none (by simp)]
    rfl

/-- C1, amended: when the remote dump delivers at least `N` bytes, the read
loop of `dump_to_byte` stops as soon as `N` bytes have accumulated — it does
not drain to end-of-stream, and the undelivered remainder
`env.delivered.drop N` stays in the pipe — the call completes with exactly
the first `N` bytes, and truncation alone causes no error (this holds even
if a read failure was pending after the delivered bytes, since the loop
never reads again). -/
theorem c1_amended (d : Dumpsys) (N : Nat) (args : List String)
    (env : RemoteEnv) (hp : env.pipeErr = none)
    (hw : env.worker = WorkerEnd.ok) (hlen : N ≤ env.delivered.length) :
    (d.dump_to_byte N args env).1 = .ok (env.delivered.take N)
    ∧ fillLoop N (List.replicate N 0) 0 env.delivered env.readErr =
      .ok (env.delivered.take N, N, env.delivered.drop N) := by
  have hfill := fillLoop_ge N env.delivered env.readErr hlen
  refine ⟨?_, hfill⟩
  simp only [Dumpsys.dump_to_byte, hp, hfill, hw]

/-- C1, witness of the amended claim at capacity 1 and stream `[5, 6]`. -/
theorem c1_witness :
    (Dumpsys.dump_to_byte ⟨0⟩ 1 [] ⟨none, [5, 6], none, WorkerEnd.ok⟩).1 =
      .ok [5]
    ∧ fillLoop 1 (List.replicate 1 0) 0 [5, 6] none = .ok ([5], 1, [6]) := by
  have h := c1_amended ⟨0⟩ 1 [] ⟨none, [5, 6], none, WorkerEnd.ok⟩ rfl rfl
    (by decide)
  exact ⟨h.1, h.2⟩

/-- C2, counterexample.  The claim says the worker is joined before the call
returns for every outcome, and that exactly one pipe and one worker are
created for every outcome.  On `dump_to_byte`'s read-error path the `?`
operator returns before `handle.join()` is reached: the trace of the call
contains no `joined` event — the worker is dropped (detached), not joined. -/
theorem c2_counterexample :
    (Dumpsys.dump_to_byte ⟨0⟩ 4 [] ⟨none, [], some 7, WorkerEnd.ok⟩).2 =
      [Event.pipeCreated, Event.spawned [], Event.pipeClosed]
    ∧ Event.joined ∉
      [Event.pipeCreated, Event.spawned [], Event.pipeClosed] := by
  refine ⟨?_, by decide⟩
  simp only [Dumpsys.dump_to_byte]
  rw [fillLoop_lt_err 4 [] 7 (by simp)]

/-- C2, amended: at most one pipe and one worker are created per capture
call — none at all when pipe creation fails; whenever the pipe is created,
exactly one worker is spawned and the pipe is closed before the call
returns; the worker is joined before the call returns in `dump` always, and
in `dump_to_byte` whenever no read error aborts the loop — but on
`dump_to_byte`'s read-error path the call returns without joining the
worker. -/
theorem c2_amended (d : Dumpsys) (args : List String) (N : Nat)
    (env : RemoteEnv) :
    (env.pipeErr = none →
      (d.dump args env).2 =
        [Event.pipeCreated, Event.spawned args, Event.joined,
          Event.pipeClosed]
      ∧ ((env.readErr = none ∨ N ≤ env.delivered.length) →
          (d.dump_to_byte N args env).2 =
            [Event.pipeCreated, Event.spawned args, Event.joined,
              Event.pipeClosed])
      ∧ (∀ c, env.readErr = some c → env.delivered.length < N →
          (d.dump_to_byte N args env).2 =
            [Event.pipeCreated, Event.spawned args, Event.pipeClosed]))
    ∧ (∀ c, env.pipeErr = some c →
        (d.dump args env).2 = [] ∧ (d.dump_to_byte N args env).2 = []) := by
  constructor
  · intro hp
    refine ⟨?_, ?_, ?_⟩
    · simp only [Dumpsys.dump, hp]
      cases hw : env.worker <;> simp [hw]
    · intro hcase
      rcases Nat.lt_or_ge env.delivered.length N with hlt | hge
      · have hre : env.readErr = none := by
          rcases hcase with h1 | h2
          · exact h1
          · omega
        simp only [Dumpsys.dump_to_byte, hp, hre]
        rw [fillLoop_eof N env.delivered hlt]
        cases hw : env.worker <;> simp [hw]
      · simp only [Dumpsys.dump_to_byte, hp]
        rw [fillLoop_ge N env.delivered env.readErr hge]
        cases hw : env.worker <;> simp [hw]
    · intro c hre hlt
      simp only [Dumpsys.dump_to_byte, hp, hre]
      rw [fillLoop_lt_err N env.delivered c hlt]
  · intro c hp
    exact ⟨by simp [Dumpsys.dump, hp], by simp [Dumpsys.dump_to_byte, hp]⟩

/-- C2, witness of the amended claim: teardown traces of `dump` at a
successful call and at a pipe-creation failure. -/
theorem c2_witness :
    (Dumpsys.dump ⟨0⟩ [] ⟨none, [], none, WorkerEnd.ok⟩).2 =
      [Event.pipeCreated, Event.spawned [], Event.joined, Event.pipeClosed]
    ∧ (Dumpsys.dump ⟨0⟩ [] ⟨some 3, [], none, WorkerEnd.ok⟩).2 = [] := by
  have h1 := c2_amended ⟨0⟩ [] 0 ⟨none, [], none, WorkerEnd.ok⟩
  have h2 := c2_amended ⟨0⟩ [] 0 ⟨some 3, [], none, WorkerEnd.ok⟩
  exact ⟨(h1.1 rfl).1, (h2.2 3 rfl).1⟩

/-- C3, counterexample.  The claim says that for a byte stream with
undecodable sequences the partially decodable content is still captured.
It is not: `read_to_string` is all-or-nothing — on the stream
`[104, 105, 255]` (text `hi` followed by the invalid byte `0xFF`) the
decodable prefix `[104, 105]` is lost and `dump` returns an empty capture
(`Ok ""`), the decoding error having been discarded by `let _ =`. -/
theorem c3_counterexample :
    (Dumpsys.dump ⟨0⟩ [] ⟨none, [104, 105, 255], none, WorkerEnd.ok⟩).1 =
      .ok []
    ∧ Outcome.ok ([] : List Nat) ≠ .ok [104, 105] := by
  have h : utf8Valid [104, 105, 255] = false := by decide
  exact ⟨by simp [Dumpsys.dump, h], by decide⟩

/-- C3, amended: a decoding failure is indeed never fatal — when the worker
succeeds, `dump` still returns success — but on a stream that is not valid
UTF-8 nothing at all is captured: the returned text is empty, because
`read_to_string` leaves the buffer unchanged on error (all-or-nothing
decoding, not lossy best-effort). -/
theorem c3_amended (d : Dumpsys) (args : List String) (env : RemoteEnv)
    (hp : env.pipeErr = none) (hw : env.worker = WorkerEnd.ok)
    (hv : utf8Valid env.delivered = false) :
    (d.dump args env).1 = .ok [] := by
  simp [Dumpsys.dump, hp, hw, hv]

/-- C3, witness of the amended claim on the one-byte invalid stream
`[255]`. -/
theorem c3_witness :
    (Dumpsys.dump ⟨0⟩ [] ⟨none, [255], none, WorkerEnd.ok⟩).1 = .ok [] :=
  c3_amended ⟨0⟩ [] ⟨none, [255], none, WorkerEnd.ok⟩ rfl rfl (by decide)

/-- C4, counterexample.  The claim says every I/O failure while draining the
pipe is reported to the caller for both capture operations.  In `dump` the
whole `read_to_string` result is discarded by `let _ =`: with a read failure
(code 7) on an otherwise empty stream and a succeeding worker, `dump`
returns `Ok ""` instead of the I/O error. -/
theorem c4_counterexample :
    (Dumpsys.dump ⟨0⟩ [] ⟨none, [], some 7, WorkerEnd.ok⟩).1 = .ok []
    ∧ Outcome.ok ([] : List Nat) ≠ .err (DumpError.ioError 7) := by
  exact ⟨by simp [Dumpsys.dump], by decide⟩

/-- C4, amended: pipe-creation failures are reported as the typed I/O error
by both operations, and a read failure while draining is reported by
`dump_to_byte`; but in `dump` an I/O failure while draining is silently
swallowed — the `let _ =` discards the `read_to_string` error and the call
still returns success when the worker succeeds, capturing the bytes read
before the failure when they are valid UTF-8 and nothing otherwise. -/
theorem c4_amended (d : Dumpsys) (args : List String) (N : Nat)
    (env : RemoteEnv) (c : Nat) :
    (env.pipeErr = some c →
      (d.dump args env).1 = .err (.ioError c)
      ∧ (d.dump_to_byte N args env).1 = .err (.ioError c))
    ∧ (env.pipeErr = none → env.readErr = some c →
        env.delivered.length < N →
        (d.dump_to_byte N args env).1 = .err (.ioError c))
    ∧ (env.pipeErr = none → env.readErr = some c →
        env.worker = WorkerEnd.ok →
        (d.dump args env).1 =
          .ok (if utf8Valid env.delivered then env.delivered else [])) := by
  refine ⟨?_, ?_, ?_⟩
  · intro hp
    exact ⟨by simp [Dumpsys.dump, hp], by simp [Dumpsys.dump_to_byte, hp]⟩
  · intro hp hre hlt
    simp only [Dumpsys.dump_to_byte, hp, hre]
    rw [fillLoop_lt_err N env.delivered c hlt]
  · intro hp hre hw
    simp [Dumpsys.dump, hp, hw]

/-- C4, witness of the amended claim: pipe-creation failure reported by
`dump`, read failure reported by `dump_to_byte`, and a read failure after
the valid byte `h` (104) swallowed by `dump`, which keeps the partial
capture. -/
theorem c4_witness :
    (Dumpsys.dump ⟨0⟩ [] ⟨some 5, [], none, WorkerEnd.ok⟩).1 =
      .err (.ioError 5)
    ∧ (Dumpsys.dump_to_byte ⟨0⟩ 2 [] ⟨none, [], some 5, WorkerEnd.ok⟩).1 =
      .err (.ioError 5)
    ∧ (Dumpsys.dump ⟨0⟩ [] ⟨none, [104], some 5, WorkerEnd.ok⟩).1 =
      .ok [104] := by
  have h1 := c4_amended ⟨0⟩ [] 2 ⟨some 5, [], none, WorkerEnd.ok⟩ 5
  have h2 := c4_amended ⟨0⟩ [] 2 ⟨none, [], some 5, WorkerEnd.ok⟩ 5
  have h3 := c4_amended ⟨0⟩ [] 2 ⟨none, [104], some 5, WorkerEnd.ok⟩ 5
  refine ⟨(h1.1 rfl).1, h2.2.1 rfl rfl (by decide), ?_⟩
  have h4 := h3.2.2 rfl rfl rfl
  simpa using h4

/-- C5, counterexample.  The claim says a remote-dump failure is returned as
the single error outcome of the whole call in every case.  In
`dump_to_byte`, a read failure propagates with `?` before `handle.join()`:
with a read error (code 7) and a worker reporting failure (code 9), the call
returns the I/O error, and the remote-dump failure is discarded. -/
theorem c5_counterexample :
    (Dumpsys.dump_to_byte ⟨0⟩ 4 [] ⟨none, [], some 7,
        WorkerEnd.fails 9⟩).1 = .err (.ioError 7)
    ∧ (Outcome.err (DumpError.ioError 7) : Outcome (List Nat)) ≠
      .err (.dumpFail 9) := by
  refine ⟨?_, by decide⟩
  simp only [Dumpsys.dump_to_byte]
  rw [fillLoop_lt_err 4 [] 7 (by simp)]

/-- C5, amended: when the worker's remote-dump invocation reports failure,
`dump` returns that failure unconditionally — regardless of what was written,
read, or even of a read error, since the text path discards read results —
and `dump_to_byte` returns it regardless of how many bytes were written or
read, provided no read error aborts the loop first (a read error preempts
the worker's result); the failure takes precedence over any partial data
already captured. -/
theorem c5_amended (d : Dumpsys) (args : List String) (N : Nat)
    (env : RemoteEnv) (c : Nat) (hp : env.pipeErr = none)
    (hw : env.worker = WorkerEnd.fails c) :
    (d.dump args env).1 = .err (.dumpFail c)
    ∧ ((env.readErr = none ∨ N ≤ env.delivered.length) →
        (d.dump_to_byte N args env).1 = .err (.dumpFail c)) := by
  constructor
  · simp [Dumpsys.dump, hp, hw]
  · intro hcase
    rcases Nat.lt_or_ge env.delivered.length N with hlt | hge
    · have hre : env.readErr = none := by
        rcases hcase with h1 | h2
        · exact h1
        · omega
      simp only [Dumpsys.dump_to_byte, hp, hre]
      rw [fillLoop_eof N env.delivered hlt]
      simp [hw]
    · simp only [Dumpsys.dump_to_byte, hp]
      rw [fillLoop_ge N env.delivered env.readErr hge]
      simp [hw]

/-- C5, witness of the amended claim: a worker failing with code 9 after
delivering one byte surfaces as the dump failure from both operations. -/
theorem c5_witness :
    (Dumpsys.dump ⟨0⟩ [] ⟨none, [104], none, WorkerEnd.fails 9⟩).1 =
      .err (.dumpFail 9)
    ∧ (Dumpsys.dump_to_byte ⟨0⟩ 4 [] ⟨none, [104], none,
        WorkerEnd.fails 9⟩).1 = .err (.dumpFail 9) := by
  have h := c5_amended ⟨0⟩ [] 4 ⟨none, [104], none, WorkerEnd.fails 9⟩ 9
    rfl rfl
  exact ⟨h.1, h.2 (Or.inl rfl)⟩

/-- C6: for `dump_to_byte` with capacity `N` on a stream that the remote
closes after writing `env.delivered` (no read error), the returned buffer is
exactly the first `N` delivered bytes followed by a zero-initialized tail —
so a stream of exactly `N` bytes is returned verbatim and a shorter stream
is zero-padded — and the read loop stops as soon as either `N` bytes have
accumulated or end-of-stream is observed, whichever comes first:
`total_read` ends at `min N env.delivered.length` and the bytes beyond the
first `N` are left unread. -/
theorem c6_fixed_capacity (d : Dumpsys) (args : List String) (N : Nat)
    (env : RemoteEnv) (hp : env.pipeErr = none)
    (hre : env.readErr = none) (hw : env.worker = WorkerEnd.ok) :
    (d.dump_to_byte N args env).1 =
      .ok (env.delivered.take N
        ++ List.replicate (N - env.delivered.length) 0)
    ∧ fillLoop N (List.replicate N 0) 0 env.delivered env.readErr =
      .ok (env.delivered.take N
          ++ List.replicate (N - env.delivered.length) 0,
        min N env.delivered.length, env.delivered.drop N) := by
  rcases Nat.lt_or_ge env.delivered.length N with hlt | hge
  · have hfill := fillLoop_eof N env.delivered hlt
    have hbuf : env.delivered.take N
        ++ List.replicate (N - env.delivered.length) 0
        = env.delivered ++ List.replicate (N - env.delivered.length) 0 := by
      rw [List.take_of_length_le (by omega)]
    have hmin : min N env.delivered.length = env.delivered.length := by
      omega
    have hdrop : env.delivered.drop N = [] := by
      rw [List.drop_eq_nil_of_le (by omega)]
    constructor
    · simp only [Dumpsys.dump_to_byte, hp, hre] at hfill ⊢
      rw [hfill, hbuf]
      simp [hw]
    · rw [hre, hfill, hbuf, hmin, hdrop]
  · have hfill := fillLoop_ge N env.delivered env.readErr hge
    have hbuf : env.delivered.take N
        ++ List.replicate (N - env.delivered.length) 0
        = env.delivered.take N := by
      have : N - env.delivered.length = 0 := by omega
      simp [this]
    have hmin : min N env.delivered.length = N := by omega
    constructor
    · simp only [Dumpsys.dump_to_byte, hp] at hfill ⊢
      rw [hfill, hbuf]
      simp [hw]
    · rw [hfill, hbuf, hmin]

/-- C6, witness at capacity 2: the one-byte stream `[9]` is zero-padded to
`[9, 0]` and the loop stops at end-of-stream with `total_read = 1`. -/
theorem c6_witness :
    (Dumpsys.dump_to_byte ⟨0⟩ 2 [] ⟨none, [9], none, WorkerEnd.ok⟩).1 =
      .ok [9, 0]
    ∧ fillLoop 2 (List.replicate 2 0) 0 [9] none = .ok ([9, 0], 1, []) := by
  have h := c6_fixed_capacity ⟨0⟩ [] 2 ⟨none, [9], none, WorkerEnd.ok⟩
    rfl rfl rfl
  exact ⟨h.1, h.2⟩

/-- C7: for a remote object that writes a UTF-8 decodable string `S` into
the pipe, closes it, and reports success, `dump` returns exactly `S`, and
the argument list is handed to the spawned worker unmodified (the `spawned
args` event records the very `args` the caller passed). -/
theorem c7_dump_exact (d : Dumpsys) (args : List String) (S : List Nat)
    (env : RemoteEnv) (hp : env.pipeErr = none)
    (hre : env.readErr = none) (hdel : env.delivered = S)
    (hS : utf8Valid S = true) (hw : env.worker = WorkerEnd.ok) :
    (d.dump args env).1 = .ok S
    ∧ Event.spawned args ∈ (d.dump args env).2 := by
  constructor
  · simp [Dumpsys.dump, hp, hre, hdel, hS, hw]
  · simp only [Dumpsys.dump, hp, hw]
    simp

/-- C7, witness: the remote writes `hi` (`[104, 105]`), closes the stream
and succeeds; `dump` with args `["--latency"]` returns exactly those bytes
and spawns the worker with those args. -/
theorem c7_witness :
    (Dumpsys.dump ⟨0⟩ ["--latency"] ⟨none, [104, 105], none,
        WorkerEnd.ok⟩).1 = .ok [104, 105]
    ∧ Event.spawned ["--latency"] ∈
      (Dumpsys.dump ⟨0⟩ ["--latency"] ⟨none, [104, 105], none,
        WorkerEnd.ok⟩).2 := by
  have h := c7_dump_exact ⟨0⟩ ["--latency"] [104, 105]
    ⟨none, [104, 105], none, WorkerEnd.ok⟩ rfl rfl rfl (by decide) rfl
  exact ⟨h.1, h.2⟩

/-- C8: `Dumpsys::new` forwards the external registry lookup
(`check_service`) with `?`: when the registry cannot resolve the name it
returns `None` — absence, not an error, and no panic is possible since the
function is total — and when the registry resolves the name to a remote
object `s` it returns a usable handle wrapping exactly that object. -/
theorem c8_new (registry : String → Option Nat) (name : String) :
    (registry name = none → Dumpsys.new registry name = none)
    ∧ (∀ s, registry name = some s →
        Dumpsys.new registry name = some ⟨s⟩) := by
  constructor
  · intro h
    simp [Dumpsys.new, h]
  · intro s h
    simp [Dumpsys.new, h]

/-- C8, witness: an empty registry yields `None` for `SurfaceFlinger`; a
registry resolving every name to object 5 yields the handle wrapping 5. -/
theorem c8_witness :
    Dumpsys.new (fun _ => none) "SurfaceFlinger" = none
    ∧ Dumpsys.new (fun _ => some 5) "SurfaceFlinger" = some ⟨5⟩ := by
  exact ⟨(c8_new (fun _ => none) "SurfaceFlinger").1 rfl,
    (c8_new (fun _ => some 5) "SurfaceFlinger").2 5 rfl⟩

/-- C9, counterexample.  The claim says an abnormally terminating worker is
always propagated as a process-level fatal fault.  On `dump_to_byte`'s
read-error path the `?` operator returns before `handle.join()`: with a
read failure (code 7) and a worker that dies, the call returns the typed
I/O error and the worker's abnormal termination is never observed — no
fatal fault is raised. -/
theorem c9_counterexample :
    (Dumpsys.dump_to_byte ⟨0⟩ 4 [] ⟨none, [], some 7,
        WorkerEnd.dies⟩).1 = .err (.ioError 7)
    ∧ (Outcome.err (DumpError.ioError 7) : Outcome (List Nat)) ≠
      Outcome.fatal := by
  refine ⟨?_, by decide⟩
  simp only [Dumpsys.dump_to_byte]
  rw [fillLoop_lt_err 4 [] 7 (by simp)]

/-- C9, amended: a worker that terminates abnormally is propagated as a
process-level fatal fault (`handle.join().unwrap()` panicking) whenever the
join is reached — always in `dump`, and in `dump_to_byte` whenever no read
error aborts the call first; the abnormal termination is never converted
into a value-level remote-dump `DumpError` by either operation (on the
read-error path it is simply not observed, the returned error being the
read failure itself). -/
theorem c9_amended (d : Dumpsys) (args : List String) (N : Nat)
    (env : RemoteEnv) (hw : env.worker = WorkerEnd.dies) :
    (env.pipeErr = none → (d.dump args env).1 = Outcome.fatal)
    ∧ (env.pipeErr = none → (env.readErr = none ∨ N ≤ env.delivered.length) →
        (d.dump_to_byte N args env).1 = Outcome.fatal)
    ∧ (∀ c, (d.dump args env).1 ≠ .err (.dumpFail c)
        ∧ (d.dump_to_byte N args env).1 ≠ .err (.dumpFail c)) := by
  refine ⟨?_, ?_, ?_⟩
  · intro hp
    simp [Dumpsys.dump, hp, hw]
  · intro hp hcase
    rcases Nat.lt_or_ge env.delivered.length N with hlt | hge
    · have hre : env.readErr = none := by
        rcases hcase with h1 | h2
        · exact h1
        · omega
      simp only [Dumpsys.dump_to_byte, hp, hre]
      rw [fillLoop_eof N env.delivered hlt]
      simp [hw]
    · simp only [Dumpsys.dump_to_byte, hp]
      rw [fillLoop_ge N env.delivered env.readErr hge]
      simp [hw]
  · intro c
    constructor
    · cases hp : env.pipeErr with
      | none => simp [Dumpsys.dump, hp, hw]
      | some e => simp [Dumpsys.dump, hp]
    · cases hp : env.pipeErr with
      | none =>
        simp only [Dumpsys.dump_to_byte, hp]
        rcases Nat.lt_or_ge env.delivered.length N with hlt | hge
        · cases hre : env.readErr with
          | none =>
            rw [fillLoop_eof N env.delivered hlt]
            simp [hw]
          | some e =>
            rw [fillLoop_lt_err N env.delivered e hlt]
            simp
        · rw [fillLoop_ge N env.delivered env.readErr hge]
          simp [hw]
      | some e => simp [Dumpsys.dump_to_byte, hp]

/-- C9, witness: a dying worker makes both operations end in the fatal
fault when the pipe works and the stream ends cleanly. -/
theorem c9_witness :
    (Dumpsys.dump ⟨0⟩ [] ⟨none, [104], none, WorkerEnd.dies⟩).1 =
      Outcome.fatal
    ∧ (Dumpsys.dump_to_byte ⟨0⟩ 4 [] ⟨none, [104], none,
        WorkerEnd.dies⟩).1 = Outcome.fatal := by
  have h := c9_amended ⟨0⟩ [] 4 ⟨none, [104], none, WorkerEnd.dies⟩ rfl
  exact ⟨h.1 rfl, h.2.1 rfl (Or.inl rfl)⟩

/-- C10: in `dump_to_byte`, if a read call on the pipe fails (which requires
the delivered bytes to run out before the buffer is full, else the loop
never reads again), the I/O error is returned immediately by `?`, before
and instead of the worker's own result: whatever the worker's outcome, the
call returns that I/O error, and the worker is never joined — its result is
discarded. -/
theorem c10_read_error_preempts (d : Dumpsys) (args : List String) (N : Nat)
    (env : RemoteEnv) (c : Nat) (hp : env.pipeErr = none)
    (hre : env.readErr = some c) (hlt : env.delivered.length < N) :
    (d.dump_to_byte N args env).1 = .err (.ioError c)
    ∧ Event.joined ∉ (d.dump_to_byte N args env).2 := by
  have hfill := fillLoop_lt_err N env.delivered c hlt
  constructor
  · simp only [Dumpsys.dump_to_byte, hp, hre]
    rw [hfill]
  · simp only [Dumpsys.dump_to_byte, hp, hre]
    rw [hfill]
    simp

/-- C10, witness: read failure 3 with a worker reporting failure 8 — the
call surfaces the I/O error and never joins the worker. -/
theorem c10_witness :
    (Dumpsys.dump_to_byte ⟨0⟩ 1 [] ⟨none, [], some 3,
        WorkerEnd.fails 8⟩).1 = .err (.ioError 3)
    ∧ Event.joined ∉
      (Dumpsys.dump_to_byte ⟨0⟩ 1 [] ⟨none, [], some 3,
        WorkerEnd.fails 8⟩).2 := by
  have h := c10_read_error_preempts ⟨0⟩ [] 1
    ⟨none, [], some 3, WorkerEnd.fails 8⟩ 3 rfl rfl (by decide)
  exact ⟨h.1, h.2⟩
